import Mathlib

/-
Verification of cmd/gokr-packer/packer.go (gokrazy packer).

The development shallowly embeds the parts of packer.go that the spec's
claims are about: the geometry checks in logic (packer.go:391-399), the
file output path overwriteFile (packer.go:215-265), the boot sector
writer writeMBR (packer.go:187-213), the seek-translating adapter
offsetReadSeeker (packer.go:174-185), the transfer-source selection in
the update phase of logic (packer.go:456-525), and the four-step remote
update sequence (packer.go:531-557).

External collaborators of the same repository that are not part of the
packed source (writeBoot, writeRoot, writePartitionTable) and external
services (fat.NewReader/Extents, mbr.Configure, the updater RPCs) are
represented as universally quantified parameters: the theorems hold for
every behaviour of them, which is strictly stronger than fixing one.

Byte content is modelled as List Nat (one entry per byte); a file is a
chronological trace of (offset, data) write operations together with the
current position, which is what the claims about offsets, sizes and
write ordering need.
-/

namespace GokrPacker

/-- MB is the constant from packer.go:28, `const MB = 1024 * 1024`. -/
def MB : Nat := 1024 * 1024

/-- One write operation against the output file: the absolute byte
offset the write started at and the bytes written. -/
structure WriteOp where
  offset : Nat
  data : List Nat
deriving DecidableEq, Repr

/-- State of an output file handle: current position plus the
chronological trace of write operations performed so far. -/
structure FileState where
  pos : Nat
  writes : List WriteOp
deriving DecidableEq, Repr

/-- Seek to an absolute position (io.SeekStart semantics of f.Seek). -/
def FileState.seek (s : FileState) (o : Nat) : FileState :=
  { s with pos := o }

/-- Write a chunk of bytes at the current position, advancing it. -/
def FileState.write (s : FileState) (p : List Nat) : FileState :=
  { pos := s.pos + p.length, writes := s.writes ++ [⟨s.pos, p⟩] }

/-- The countingWriter of packer.go:84, `type countingWriter int64`. -/
abbrev countingWriter : Type := Int

/-- Write method of countingWriter (packer.go:86-89): adds len(p) to the
counter and reports len(p) bytes written, never failing. -/
def countingWriter.write (cw : countingWriter) (p : List Nat) : countingWriter × Nat :=
  (cw + p.length, p.length)

/-- One chunk going through io.MultiWriter(f, cw): the chunk is written
to the file and to the counting writer. -/
def multiWriteChunk (s : FileState) (cw : countingWriter) (p : List Nat) :
    FileState × countingWriter :=
  (s.write p, (countingWriter.write cw p).1)

/-- A whole sequence of Write calls going through io.MultiWriter(f, cw),
as issued by writeBoot or by io.Copy. -/
def multiWriteAll (s : FileState) (cw : countingWriter) (chunks : List (List Nat)) :
    FileState × countingWriter :=
  chunks.foldl (fun a p => multiWriteChunk a.1 a.2 p) (s, cw)

/-- Total byte length of a sequence of write chunks. -/
def totalLen (chunks : List (List Nat)) : Nat :=
  (chunks.map List.length).sum

/-- Trace of consecutive writes starting at a base offset. -/
def seqWrites (base : Nat) : List (List Nat) → List WriteOp
  | [] => []
  | p :: rest => ⟨base, p⟩ :: seqWrites (base + p.length) rest

/-- Path of the kernel image looked up by writeMBR (packer.go:192). -/
def vmlinuzPath : String := "/vmlinuz"

/-- Path of the command-line file looked up by writeMBR (packer.go:196). -/
def cmdlineTxtPath : String := "/cmdline.txt"

/-- View of the FAT reader obtained from
fat.NewReader(&offsetReadSeeker\x7bf, 8192 * 512\x7d): whether NewReader
succeeds, and for each path the starting byte offset that rd.Extents
returns (none when the extents cannot be found). -/
structure FatView where
  readerOk : Bool
  extents : String → Option Nat

/-- Errors of writeMBR: fat.NewReader failing, or rd.Extents failing for
one of the two boot-critical paths. -/
inductive MBRError
  | newReaderFailed
  | extentsFailed (path : String)
deriving DecidableEq, Repr

/-- The writeMBR function (packer.go:187-213) over the file-state model.
It looks up the extents of /vmlinuz and /cmdline.txt; on failure it
returns the error with the file untouched. On success it seeks to
absolute byte 0, converts each byte offset to a sector number
(offset / 512 + 8192, truncated to uint32 as in the source) and writes
the record produced by mbr.Configure, an external encoder passed in as
the parameter mbrConfigure. -/
def writeMBR (mbrConfigure : Nat → Nat → List Nat) (fat : FatView) (f : FileState) :
    FileState × Option MBRError :=
  if fat.readerOk = false then (f, some .newReaderFailed)
  else
    match fat.extents vmlinuzPath with
    | none => (f, some (.extentsFailed vmlinuzPath))
    | some vmlinuzOffset =>
      match fat.extents cmdlineTxtPath with
      | none => (f, some (.extentsFailed cmdlineTxtPath))
      | some cmdlineOffset =>
        let f2 := f.seek 0
        let vmlinuzLba := (vmlinuzOffset / 512 + 8192) % 2 ^ 32
        let cmdlineTxtLba := (cmdlineOffset / 512 + 8192) % 2 ^ 32
        (f2.write (mbrConfigure vmlinuzLba cmdlineTxtLba), none)

/-- Errors escaping overwriteFile in the model (write failures cannot
occur in the model, so only writeMBR errors remain). -/
inductive PackError
  | mbr (e : MBRError)
deriving DecidableEq, Repr

/-- The overwriteFile function (packer.go:215-265) over the file-state
model. The collaborators writePartitionTable, writeBoot and writeRoot
live in the same repository but outside the packed source, so they enter
as parameters: writePartitionTable's bytes as a function of the target
size, and writeBoot's and writeRoot's Write-call sequences as chunk
lists. The root image is first written to a temporary file and then
copied with io.Copy into the output, so the bytes copied are the
flattened root chunks. Both counters follow countingWriter through
io.MultiWriter exactly as in the source. f.Truncate only sets the file
size and performs no write, so it does not appear in the trace. -/
def overwriteFile (targetStorageBytes : Int)
    (writePartitionTable : Int → List Nat)
    (bootChunks rootChunks : List (List Nat))
    (mbrConfigure : Nat → Nat → List Nat) (fat : FatView) :
    FileState × Except PackError (Int × Int) :=
  let f : FileState := { pos := 0, writes := [] }
  let f := f.write (writePartitionTable targetStorageBytes)
  let f := f.seek (8192 * 512)
  let bs : countingWriter := (0 : Int)
  let r1 := multiWriteAll f bs bootChunks
  match writeMBR mbrConfigure fat r1.1 with
  | (f2, some e) => (f2, .error (.mbr e))
  | (f2, none) =>
    let f3 := f2.seek (8192 * 512 + 100 * MB)
    let tmpContent := rootChunks.flatten
    let rs : countingWriter := (0 : Int)
    let r2 := multiWriteAll f3 rs [tmpContent]
    (r2.1, .ok (r1.2, r2.2))

/-- Geometry errors raised by the file branch of logic
(packer.go:391-399) before overwriteFile is invoked. -/
inductive GeometryError
  | sizeRequired
  | notSectorMultiple
  | belowMinimum
deriving DecidableEq, Repr

/-- The lower size bound of packer.go:397,
`lower := 1100*MB + 8192` (bytes). -/
def lower : Int := 1100 * (MB : Int) + 8192

/-- File branch of logic (packer.go:390-404): validate
targetStorageBytes, and only when all three checks pass call
overwriteFile; on a failed check nothing is written (no file state is
even produced). -/
def logicFileBranch (targetStorageBytes : Int)
    (writePartitionTable : Int → List Nat)
    (bootChunks rootChunks : List (List Nat))
    (mbrConfigure : Nat → Nat → List Nat) (fat : FatView) :
    Except GeometryError (FileState × Except PackError (Int × Int)) :=
  if targetStorageBytes = 0 then .error .sizeRequired
  else if targetStorageBytes % 512 ≠ 0 then .error .notSectorMultiple
  else if targetStorageBytes < lower then .error .belowMinimum
  else .ok (overwriteFile targetStorageBytes writePartitionTable
    bootChunks rootChunks mbrConfigure fat)

/-- Seek origins of the io package: io.SeekStart, io.SeekCurrent,
io.SeekEnd. -/
inductive Whence
  | seekStart
  | seekCurrent
  | seekEnd
deriving DecidableEq, Repr

/-- A seekable byte stream: its content and the current position.
Models the io.ReadSeeker underlying an offsetReadSeeker. -/
structure ByteStream where
  data : List Nat
  pos : Nat
deriving DecidableEq, Repr

/-- Seek semantics of an os.File style stream: the new absolute position
is the origin selected by whence plus the offset; a negative result is
an error (none), otherwise the position moves and is returned. -/
def ByteStream.seek (s : ByteStream) (offset : Int) (w : Whence) :
    Option (ByteStream × Int) :=
  let base : Int :=
    match w with
    | .seekStart => 0
    | .seekCurrent => (s.pos : Int)
    | .seekEnd => (s.data.length : Int)
  let npos := base + offset
  if npos < 0 then none
  else some ({ s with pos := npos.toNat }, npos)

/-- Bytes obtained by reading n bytes at the current position. -/
def ByteStream.readBytes (s : ByteStream) (n : Nat) : List Nat :=
  (s.data.drop s.pos).take n

/-- The offsetReadSeeker of packer.go:174-177: an underlying stream plus
a fixed byte offset. -/
structure offsetReadSeeker where
  underlying : ByteStream
  offset : Int
deriving DecidableEq, Repr

/-- Seek method of offsetReadSeeker (packer.go:179-185): io.SeekStart
seeks are forwarded with the fixed offset added; every other whence is
passed through to the underlying stream untranslated. -/
def offsetReadSeeker.seek (ors : offsetReadSeeker) (offset : Int) (whence : Whence) :
    Option (offsetReadSeeker × Int) :=
  match whence with
  | .seekStart =>
    (ors.underlying.seek (offset + ors.offset) .seekStart).map
      (fun r => ({ ors with underlying := r.1 }, r.2))
  | w =>
    (ors.underlying.seek offset w).map
      (fun r => ({ ors with underlying := r.1 }, r.2))

/-- A transfer source for the update phase (the readers built at
packer.go:456-525): either a plainly opened file, or a file opened,
seeked to seekOffset and wrapped in an io.LimitedReader bounding it to n
bytes. -/
inductive TransferSource
  | file (path : String)
  | limited (path : String) (seekOffset : Nat) (n : Int)
deriving DecidableEq, Repr

/-- Source selection of the update phase for the -overwrite target
(packer.go:459-495), returning (bootReader, rootReader). In the isDev
branch the two partitions are opened directly (path + "1", path + "2").
In the file branch each reader is the output file seeked to a fixed
offset and wrapped in an io.LimitedReader whose N field is taken
verbatim from the source: rootSize for the boot reader (packer.go:481)
and bootSize for the root reader (packer.go:493). -/
def selectOverwriteReaders (ow : String) (isDev : Bool) (bootSize rootSize : Int) :
    TransferSource × TransferSource :=
  if isDev then
    (.file (ow ++ "1"), .file (ow ++ "2"))
  else
    (.limited ow (8192 * 512) rootSize, .limited ow (8192 * 512 + 100 * MB) bootSize)

/-- The variables declared at packer.go:370-374 that the update phase
later reads: the outer isDev and the two sizes, all starting at their
zero values. -/
structure LogicVars where
  isDev : Bool
  bootSize : Int
  rootSize : Int
deriving DecidableEq, Repr

/-- Reader selection of logic across both phases (packer.go:370-495).
The write phase: for a device target, packer.go:382 declares a NEW
isDev with a short variable declaration (`isDev := ...`), shadowing the
outer variable of packer.go:371, and overwriteDevice returns no sizes,
so none of the outer variables change; for a file target, packer.go:401
assigns the outer bootSize and rootSize from overwriteFile. The read
phase (packer.go:460) branches on the OUTER isDev. -/
def logicReaderSelection (ow : String) (targetIsDevice : Bool)
    (fileBootSize fileRootSize : Int) : TransferSource × TransferSource :=
  let vars : LogicVars := { isDev := false, bootSize := 0, rootSize := 0 }
  let vars :=
    if targetIsDevice then vars
    else { vars with bootSize := fileBootSize, rootSize := fileRootSize }
  selectOverwriteReaders ow vars.isDev vars.bootSize vars.rootSize

/-- The four remote calls of the update phase, in source order
(packer.go:540-554). -/
inductive UpdateStep
  | root
  | boot
  | switchSlot
  | reboot
deriving DecidableEq, Repr

/-- State-qualified errors wrapping a failed remote call
(packer.go:541, 545, 549, 553). -/
inductive UpdateError
  | rootTransferFailed (msg : String)
  | bootTransferFailed (msg : String)
  | switchFailed (msg : String)
  | rebootRequestFailed (msg : String)
deriving DecidableEq, Repr

/-- An update target URL as net/url exposes it to this code: scheme,
userinfo (credentials), host and path. -/
structure URL where
  scheme : String
  user : String
  host : String
  path : String
deriving DecidableEq, Repr

/-- The four-call update sequence (packer.go:538-557) driven by the
outcome of each remote call (none is success, some msg the error the
updater returned). Returns the chronological log of calls made, each
with the URL it was issued against, and the error the sequence aborted
with, if any. Each call is attempted only after every earlier call
succeeded; a failed call is the last entry of the log and its error is
wrapped in the state-qualified constructor. -/
def updateSequence (baseUrl : URL)
    (updateRootErr updateBootErr switchErr rebootErr : Option String) :
    List (UpdateStep × URL) × Option UpdateError :=
  match updateRootErr with
  | some e => ([(.root, baseUrl)], some (.rootTransferFailed e))
  | none =>
    match updateBootErr with
    | some e => ([(.root, baseUrl), (.boot, baseUrl)], some (.bootTransferFailed e))
    | none =>
      match switchErr with
      | some e =>
        ([(.root, baseUrl), (.boot, baseUrl), (.switchSlot, baseUrl)],
          some (.switchFailed e))
      | none =>
        match rebootErr with
        | some e =>
          ([(.root, baseUrl), (.boot, baseUrl), (.switchSlot, baseUrl),
            (.reboot, baseUrl)], some (.rebootRequestFailed e))
        | none =>
          ([(.root, baseUrl), (.boot, baseUrl), (.switchSlot, baseUrl),
            (.reboot, baseUrl)], none)

/-- The update tail of logic (packer.go:531-557): the parsed -update URL
has its path replaced by "/" (packer.go:535) and the resulting base URL
is the one every remote call is issued against. -/
def runUpdate (u : URL)
    (updateRootErr updateBootErr switchErr rebootErr : Option String) :
    List (UpdateStep × URL) × Option UpdateError :=
  let baseUrl := { u with path := "/" }
  updateSequence baseUrl updateRootErr updateBootErr switchErr rebootErr

/-- Concrete boot sector encoder used by witnesses: it records its two
sector-number arguments verbatim. -/
def mc0 : Nat → Nat → List Nat := fun a b => [a, b]

/-- Concrete partition-table encoder used by witnesses. -/
def wpt0 : Int → List Nat := fun _ => [7]

/-- Concrete FAT view used by witnesses: the kernel starts at byte 2048
and the command line at byte 4096, matching the worked example of the
spec. -/
def fat0 : FatView :=
  { readerOk := true,
    extents := fun p =>
      if p = vmlinuzPath then some 2048
      else if p = cmdlineTxtPath then some 4096
      else none }

/-- Concrete FAT view whose extent lookups all fail. -/
def fatBad : FatView := { readerOk := true, extents := fun _ => none }

/-- Concrete output file path for evaluation theorems. -/
def imgPath : String := "gokrazy.img"

/-- Concrete block device path for evaluation theorems. -/
def devSdb : String := "/dev/sdb"

/-- Concrete update URL for witnesses. -/
def url0 : URL := { scheme := "http", user := "gokrazy:pw", host := "gokrazy", path := "/" }

/-- Concrete error message for witnesses. -/
def m0 : String := "boom"

/-- Characterization of a Write-call sequence through io.MultiWriter:
the file gains the consecutive writes starting at its position, and the
counting writer gains exactly the total byte length. -/
lemma multiWriteAll_eq (chunks : List (List Nat)) (s : FileState) (cw : countingWriter) :
    multiWriteAll s cw chunks =
      ({ pos := s.pos + totalLen chunks, writes := s.writes ++ seqWrites s.pos chunks },
        cw + (totalLen chunks : Int)) := by
  induction chunks generalizing s cw with
  | nil =>
    simp [multiWriteAll, totalLen, seqWrites]
  | cons p rest ih =>
    have h1 : multiWriteAll s cw (p :: rest)
        = multiWriteAll (s.write p) (cw + (p.length : Int)) rest := by
      simp [multiWriteAll, multiWriteChunk, countingWriter.write]
    rw [h1, ih]
    simp [FileState.write, totalLen, seqWrites, List.append_assoc, Nat.add_assoc]
    ring

/-- Byte lengths of the writes in a consecutive trace are the chunk
lengths. -/
lemma seqWrites_map_dataLength (base : Nat) (chunks : List (List Nat)) :
    (seqWrites base chunks).map (fun w => w.data.length) = chunks.map List.length := by
  induction chunks generalizing base with
  | nil => simp [seqWrites]
  | cons p rest ih => simp [seqWrites, ih]

/-- Characterization of a successful overwriteFile run: the full write
trace — partition table at 0, boot chunks from 8192 * 512, boot sector
at 0, root content at 8192 * 512 + 100 MB — and the returned byte
counts. -/
lemma overwriteFile_success_eq (S : Int) (wpt : Int → List Nat)
    (bc rc : List (List Nat)) (mc : Nat → Nat → List Nat) (fat : FatView)
    (B C : Nat) (hr : fat.readerOk = true)
    (hv : fat.extents vmlinuzPath = some B)
    (hc : fat.extents cmdlineTxtPath = some C) :
    overwriteFile S wpt bc rc mc fat =
      ({ pos := 8192 * 512 + 100 * MB + rc.flatten.length,
         writes := ⟨0, wpt S⟩ :: (seqWrites (8192 * 512) bc
            ++ [⟨0, mc ((B / 512 + 8192) % 2 ^ 32) ((C / 512 + 8192) % 2 ^ 32)⟩,
                ⟨8192 * 512 + 100 * MB, rc.flatten⟩]) },
        .ok ((totalLen bc : Int), (rc.flatten.length : Int))) := by
  simp [overwriteFile, multiWriteAll_eq, writeMBR, hr, hv, hc,
    FileState.seek, FileState.write, totalLen, seqWrites]

/-- Claim C1. The claim states that after materializing into a composite
file, the boot transfer source is a window at 4 MiB bounded to exactly
bootSize bytes and the root source a window at 104 MiB bounded to
exactly rootSize bytes. The code disagrees: the two io.LimitedReader
bounds are swapped (packer.go:481 bounds the boot reader by rootSize and
packer.go:493 bounds the root reader by bootSize). Evaluating the source
selection at bootSize = 1, rootSize = 2 shows the boot window carries
limit 2 and the root window limit 1, refuting the claimed assignment. -/
theorem bootRootReaderLimitsSwapped :
    selectOverwriteReaders imgPath false 1 2
        = (.limited imgPath (8192 * 512) 2, .limited imgPath (8192 * 512 + 100 * MB) 1)
      ∧ selectOverwriteReaders imgPath false 1 2
        ≠ (.limited imgPath (8192 * 512) 1, .limited imgPath (8192 * 512 + 100 * MB) 2) :=
  ⟨rfl, by decide⟩

/-- Claim C2. The claim states that for a live block device the two
transfer sources are the device's partitions opened directly. The code
disagrees: the short variable declaration at packer.go:382 shadows the
outer isDev of packer.go:371, which stays false, so the update phase at
packer.go:460 always takes the file-window branch even for a device
target, opening the whole-device path with offset windows (whose limits
are moreover the never-assigned zero sizes). -/
theorem deviceUpdateTakesFileBranch :
    logicReaderSelection devSdb true 7 9
        = (.limited devSdb (8192 * 512) 0, .limited devSdb (8192 * 512 + 100 * MB) 0)
      ∧ logicReaderSelection devSdb true 7 9
        ≠ (.file (devSdb ++ "1"), .file (devSdb ++ "2")) :=
  ⟨rfl, by decide⟩

/-- Claim C3, counterexample. The claim puts the minimum accepted size
at 1100 MiB + 4 MiB = 1104 MiB, but 1100 MiB + 8192 bytes = 1153441792
is a multiple of 512, lies strictly below 1104 MiB, and is nevertheless
accepted by the geometry checks of logic (packer.go:391-399), so the
claimed threshold is wrong. -/
theorem minSizeClaimCounterexample :
    (1153441792 : Int) % 512 = 0 ∧ (1153441792 : Int) < 1104 * 1024 * 1024 ∧
    logicFileBranch 1153441792 wpt0 [] [] mc0 fat0
      = .ok (overwriteFile 1153441792 wpt0 [] [] mc0 fat0) := by
  refine ⟨by decide, by decide, ?_⟩
  rfl

/-- Claim C3, amended. For a file target, a requested total size is
accepted (reaching overwriteFile, with no write performed on rejection)
exactly when it is a multiple of 512 and at least 1100 MiB + 8192 bytes;
in particular 1200 MiB is accepted and 1000 MiB is rejected. -/
theorem targetSizeAcceptedIff (S : Int) (wpt : Int → List Nat)
    (bc rc : List (List Nat)) (mc : Nat → Nat → List Nat) (fat : FatView) :
    (logicFileBranch S wpt bc rc mc fat
        = .ok (overwriteFile S wpt bc rc mc fat)
      ↔ S % 512 = 0 ∧ 1100 * 1024 * 1024 + 8192 ≤ S)
    ∧ logicFileBranch (1200 * 1024 * 1024) wpt bc rc mc fat
        = .ok (overwriteFile (1200 * 1024 * 1024) wpt bc rc mc fat)
    ∧ logicFileBranch (1000 * 1024 * 1024) wpt bc rc mc fat = .error .belowMinimum := by
  have hmain : ∀ T : Int, logicFileBranch T wpt bc rc mc fat
      = .ok (overwriteFile T wpt bc rc mc fat)
      ↔ T % 512 = 0 ∧ 1100 * 1024 * 1024 + 8192 ≤ T := by
    intro T
    unfold logicFileBranch
    split_ifs with h1 h2 h3 <;> simp [lower, MB] at * <;> omega
  refine ⟨hmain S, ?_, ?_⟩
  · exact (hmain (1200 * 1024 * 1024)).2 (by constructor <;> decide)
  · rfl

/-- Claim C4. For every boot region whose kernel file starts at byte
offset B and whose command-line file at byte offset C, both within the
boot region's 100 MiB capacity, writeMBR writes at absolute byte 0 the
record produced by the boot sector encoder applied to exactly the sector
numbers 8192 + B / 512 and 8192 + C / 512. -/
theorem bootSectorEncodesLbas (mc : Nat → Nat → List Nat) (fat : FatView)
    (f : FileState) (B C : Nat) (hr : fat.readerOk = true)
    (hv : fat.extents vmlinuzPath = some B)
    (hc : fat.extents cmdlineTxtPath = some C)
    (hB : B < 100 * MB) (hC : C < 100 * MB) :
    writeMBR mc fat f
      = ({ pos := (mc (8192 + B / 512) (8192 + C / 512)).length,
           writes := f.writes ++ [⟨0, mc (8192 + B / 512) (8192 + C / 512)⟩] }, none) := by
  have hB2 : B < 104857600 := by simpa [MB] using hB
  have hC2 : C < 104857600 := by simpa [MB] using hC
  have h1 : (B / 512 + 8192) % 4294967296 = 8192 + B / 512 := by omega
  have h2 : (C / 512 + 8192) % 4294967296 = 8192 + C / 512 := by omega
  simp [writeMBR, hr, hv, hc, FileState.seek, FileState.write, h1, h2]

/-- Claim C4, witness: a kernel at byte 2048 and a command line at byte
4096 produce a boot sector encoding sectors 8196 and 8200, written at
absolute byte 0. -/
theorem bootSectorEncodesLbas_witness :
    writeMBR mc0 fat0 { pos := 0, writes := [] }
      = ({ pos := 2, writes := [⟨0, [8196, 8200]⟩] }, none) := by
  have h := bootSectorEncodesLbas mc0 fat0 { pos := 0, writes := [] } 2048 4096
    rfl (by decide) (by decide) (by decide) (by decide)
  simpa [mc0] using h

/-- Claim C5. For every valid total size S (multiple of 512, at least
the minimum), the file branch produces a trace whose boot region content
starts at absolute byte 4 MiB and whose root region content is written
at absolute byte 104 MiB, independent of S. -/
theorem plannerLayoutOffsets (S : Int) (h512 : S % 512 = 0)
    (hmin : (1100 * 1024 * 1024 + 8192 : Int) ≤ S)
    (wpt : Int → List Nat) (bc rc : List (List Nat))
    (mc : Nat → Nat → List Nat) (fat : FatView) (B C : Nat)
    (hr : fat.readerOk = true) (hv : fat.extents vmlinuzPath = some B)
    (hc : fat.extents cmdlineTxtPath = some C) :
    logicFileBranch S wpt bc rc mc fat =
      .ok ({ pos := 104 * MB + rc.flatten.length,
             writes := ⟨0, wpt S⟩ :: (seqWrites (4 * MB) bc
                ++ [⟨0, mc ((B / 512 + 8192) % 2 ^ 32) ((C / 512 + 8192) % 2 ^ 32)⟩,
                    ⟨104 * MB, rc.flatten⟩]) },
          .ok ((totalLen bc : Int), (rc.flatten.length : Int))) := by
  have hok : logicFileBranch S wpt bc rc mc fat
      = .ok (overwriteFile S wpt bc rc mc fat) := by
    unfold logicFileBranch
    split_ifs with h1 h2 h3 <;> simp [lower, MB] at * <;> omega
  rw [hok, overwriteFile_success_eq S wpt bc rc mc fat B C hr hv hc]
  norm_num [MB]

/-- Claim C5, witness at S = 1200 MiB with two boot chunks and one root
chunk. -/
theorem plannerLayoutOffsets_witness :
    logicFileBranch (1200 * 1024 * 1024) wpt0 [[1], [2]] [[3]] mc0 fat0
      = .ok ({ pos := 104 * MB + 1,
               writes := ⟨0, wpt0 (1200 * 1024 * 1024)⟩ :: (seqWrites (4 * MB) [[1], [2]]
                  ++ [⟨0, mc0 ((2048 / 512 + 8192) % 2 ^ 32) ((4096 / 512 + 8192) % 2 ^ 32)⟩,
                      ⟨104 * MB, [3]⟩]) },
          .ok ((totalLen [[1], [2]] : Int), (1 : Int))) := by
  have h := plannerLayoutOffsets (1200 * 1024 * 1024) (by decide) (by decide)
    wpt0 [[1], [2]] [[3]] mc0 fat0 2048 4096 rfl (by decide) (by decide)
  simpa using h

/-- Claim C6. The offsetReadSeeker with base offset K: seeking to
absolute position P through the adapter and then reading yields the same
bytes as seeking to P + K directly on the underlying stream and reading;
seeks relative to the current position or to the end pass through to the
underlying stream untranslated. -/
theorem offsetReadSeekerSeekSpec (u : ByteStream) (K P off : Int) (n : Nat) :
    (((offsetReadSeeker.mk u K).seek P .seekStart).map
        (fun r => (r.1).underlying.readBytes n)
      = ((u.seek (P + K) .seekStart).map (fun r => (r.1).readBytes n)))
    ∧ (((offsetReadSeeker.mk u K).seek off .seekCurrent).map
        (fun r => ((r.1).underlying, r.2))
      = u.seek off .seekCurrent)
    ∧ (((offsetReadSeeker.mk u K).seek off .seekEnd).map
        (fun r => ((r.1).underlying, r.2))
      = u.seek off .seekEnd) := by
  refine ⟨?_, ?_, ?_⟩
  · rcases h : u.seek (P + K) .seekStart with _ | r <;>
      simp [offsetReadSeeker.seek, h]
  · rcases h : u.seek off .seekCurrent with _ | r <;>
      simp [offsetReadSeeker.seek, h]
  · rcases h : u.seek off .seekEnd with _ | r <;>
      simp [offsetReadSeeker.seek, h]

/-- Claim C7. For every successful file-variant run, the returned
bootSize equals the total byte length of the boot region writes that
went into the output file (not the declared 100 MiB capacity), and the
returned rootSize equals the byte length of the root region content
copied into the output file. -/
theorem overwriteFileReturnsExactSizes (S : Int) (wpt : Int → List Nat)
    (bc rc : List (List Nat)) (mc : Nat → Nat → List Nat) (fat : FatView)
    (B C : Nat) (hr : fat.readerOk = true)
    (hv : fat.extents vmlinuzPath = some B)
    (hc : fat.extents cmdlineTxtPath = some C) :
    (overwriteFile S wpt bc rc mc fat).1.writes
        = ⟨0, wpt S⟩ :: (seqWrites (4 * MB) bc
          ++ [⟨0, mc ((B / 512 + 8192) % 2 ^ 32) ((C / 512 + 8192) % 2 ^ 32)⟩,
              ⟨104 * MB, rc.flatten⟩])
      ∧ (overwriteFile S wpt bc rc mc fat).2
        = .ok (((((seqWrites (4 * MB) bc).map (fun w => w.data.length)).sum : Nat) : Int),
            (rc.flatten.length : Int)) := by
  rw [overwriteFile_success_eq S wpt bc rc mc fat B C hr hv hc]
  refine ⟨?_, ?_⟩
  · norm_num [MB]
  · rw [seqWrites_map_dataLength]
    norm_num [totalLen]

/-- Claim C7, witness with two boot chunks of one byte each and a
one-byte root image. -/
theorem overwriteFileReturnsExactSizes_witness :
    (overwriteFile 1258291200 wpt0 [[1], [2]] [[3]] mc0 fat0).1.writes
        = ⟨0, wpt0 1258291200⟩ :: (seqWrites (4 * MB) [[1], [2]]
          ++ [⟨0, mc0 ((2048 / 512 + 8192) % 2 ^ 32) ((4096 / 512 + 8192) % 2 ^ 32)⟩,
              ⟨104 * MB, [3]⟩])
      ∧ (overwriteFile 1258291200 wpt0 [[1], [2]] [[3]] mc0 fat0).2
        = .ok (((((seqWrites (4 * MB) [[1], [2]]).map (fun w => w.data.length)).sum : Nat) : Int),
            (1 : Int)) := by
  have h := overwriteFileReturnsExactSizes 1258291200 wpt0 [[1], [2]] [[3]] mc0 fat0
    2048 4096 rfl (by decide) (by decide)
  simpa using h

/-- Claim C8. The four remote calls happen in the strict order root
transfer, boot transfer, slot switch, reboot with none skipped; a
failure at step N aborts with the state-qualified error and leaves the
calls after N unexecuted. -/
theorem updateSequenceOrderAndAbort (u : URL) (r b sw rb : Option String) :
    (r = none ∧ b = none ∧ sw = none ∧ rb = none →
      updateSequence u r b sw rb
        = ([(.root, u), (.boot, u), (.switchSlot, u), (.reboot, u)], none))
    ∧ (∀ e, r = some e →
        updateSequence u r b sw rb = ([(.root, u)], some (.rootTransferFailed e)))
    ∧ (∀ e, r = none → b = some e →
        updateSequence u r b sw rb
          = ([(.root, u), (.boot, u)], some (.bootTransferFailed e)))
    ∧ (∀ e, r = none → b = none → sw = some e →
        updateSequence u r b sw rb
          = ([(.root, u), (.boot, u), (.switchSlot, u)], some (.switchFailed e)))
    ∧ (∀ e, r = none → b = none → sw = none → rb = some e →
        updateSequence u r b sw rb
          = ([(.root, u), (.boot, u), (.switchSlot, u), (.reboot, u)],
              some (.rebootRequestFailed e))) := by
  refine ⟨?_, ?_, ?_, ?_, ?_⟩
  · rintro ⟨rfl, rfl, rfl, rfl⟩; rfl
  · rintro e rfl; rfl
  · rintro e rfl rfl; rfl
  · rintro e rfl rfl rfl; rfl
  · rintro e rfl rfl rfl rfl; rfl

/-- Claim C8, witness: the all-success run performs exactly the four
calls in order, and a root transfer failure performs only the first
call and aborts with the root-qualified error. -/
theorem updateSequenceOrderAndAbort_witness :
    updateSequence url0 none none none none
        = ([(.root, url0), (.boot, url0), (.switchSlot, url0), (.reboot, url0)], none)
      ∧ updateSequence url0 (some m0) none none none
        = ([(.root, url0)], some (.rootTransferFailed m0)) :=
  ⟨(updateSequenceOrderAndAbort url0 none none none none).1 ⟨rfl, rfl, rfl, rfl⟩,
   (updateSequenceOrderAndAbort url0 (some m0) none none none).2.1 m0 rfl⟩

/-- Claim C9. If the extent lookup fails for either boot-critical file,
writeMBR returns an error with the medium untouched — in particular
nothing is written at absolute byte 0 by it — and overwriteFile aborts
with that error, stopping image construction. -/
theorem extentFailureAborts (mc : Nat → Nat → List Nat) (fat : FatView)
    (f : FileState)
    (h : fat.extents vmlinuzPath = none ∨ fat.extents cmdlineTxtPath = none) :
    ∃ e, writeMBR mc fat f = (f, some e)
      ∧ ∀ (S : Int) (wpt : Int → List Nat) (bc rc : List (List Nat)),
          (overwriteFile S wpt bc rc mc fat).2 = .error (.mbr e) := by
  cases hro : fat.readerOk with
  | false =>
    refine ⟨.newReaderFailed, ?_, ?_⟩
    · simp [writeMBR, hro]
    · intro S wpt bc rc
      simp [overwriteFile, writeMBR, hro]
  | true =>
    cases hv : fat.extents vmlinuzPath with
    | none =>
      refine ⟨.extentsFailed vmlinuzPath, ?_, ?_⟩
      · simp [writeMBR, hro, hv]
      · intro S wpt bc rc
        simp [overwriteFile, writeMBR, hro, hv]
    | some B =>
      have hcnone : fat.extents cmdlineTxtPath = none := by
        rcases h with h | h
        · rw [hv] at h; exact absurd h (by simp)
        · exact h
      refine ⟨.extentsFailed cmdlineTxtPath, ?_, ?_⟩
      · simp [writeMBR, hro, hv, hcnone]
      · intro S wpt bc rc
        simp [overwriteFile, writeMBR, hro, hv, hcnone]

/-- Claim C9, witness: with every extent lookup failing, writeMBR leaves
an empty file state unchanged and overwriteFile returns the error. -/
theorem extentFailureAborts_witness :
    ∃ e, writeMBR mc0 fatBad { pos := 0, writes := [] }
        = ({ pos := 0, writes := [] }, some e)
      ∧ ∀ (S : Int) (wpt : Int → List Nat) (bc rc : List (List Nat)),
          (overwriteFile S wpt bc rc mc0 fatBad).2 = .error (.mbr e) :=
  extentFailureAborts mc0 fatBad { pos := 0, writes := [] } (Or.inl rfl)

/-- Claim C10. Every remote call of the update run is issued against the
base URL whose path has been replaced by "/" while scheme, credentials
and host are kept from the user-supplied URL, whatever path that URL
carried. -/
theorem runUpdateUsesBaseUrl (u : URL)
    (updateRootErr updateBootErr switchErr rebootErr : Option String) :
    ((runUpdate u updateRootErr updateBootErr switchErr rebootErr).1).map Prod.snd
      = List.replicate
          ((runUpdate u updateRootErr updateBootErr switchErr rebootErr).1).length
          { scheme := u.scheme, user := u.user, host := u.host, path := "/" } := by
  cases updateRootErr <;> cases updateBootErr <;> cases switchErr <;> cases rebootErr <;>
    simp [runUpdate, updateSequence, List.replicate]

end GokrPacker
